import Mathlib

/-!
Shallow embedding of the connection-context manager, the MITM-proxy facade
and the ports-file module of cypress-ntlm-auth, together with theorems
checking the specification's claims against these definitions.

Sources embedded:
* `src/proxy/connection.context.manager.ts` (ConnectionContextManager,
  HttpMitmProxyFacade),
* the ports-file module (`parsePortsFile`, `validatePortsFile`).

Side effects (destroying a context, removing a socket listener, ending a
socket) are modelled as an explicit event trace; the JavaScript object used
as a hash table is modelled as an association list with the object's
lookup/assign/delete semantics.
-/

/-- A downstream TCP socket, reduced to the fields the manager reads
(`remoteAddress`, `remotePort`). -/
structure Socket where
  remoteAddress : String
  remotePort : Nat
  deriving DecidableEq, Repr

/-- A fully resolved target URL (`CompleteUrl`), reduced to the fields
`getAgent` reads: `href` (debug logging only) and `isLocalhost`. -/
structure CompleteUrl where
  href : String
  isLocalhost : Bool
  deriving DecidableEq, Repr

/-- Options handed to an agent constructor (`https.AgentOptions` plus the
routing information the upstream proxy manager writes into them). -/
structure AgentOptions where
  keepAlive : Bool
  maxSockets : Nat
  rejectUnauthorized : Bool
  proxyUrl : Option String := none
  deriving DecidableEq, Repr

/-- Which agent constructor `getAgent` picked. -/
inductive AgentKind where
  | httpAgent
  | httpsAgent
  | httpProxyAgent
  | httpsProxyAgent
  deriving DecidableEq, Repr

/-- A constructed upstream agent: the constructor used and the options it
was given. -/
structure Agent where
  kind : AgentKind
  options : AgentOptions
  deriving DecidableEq, Repr

/-- The upstream proxy configuration the manager was started with:
`HTTP_PROXY`, `HTTPS_PROXY` and the NO_PROXY bypass decision per target. -/
structure UpstreamConfig where
  httpProxy : Option String
  httpsProxy : Option String
  noProxyBypass : CompleteUrl → Bool

/-- Modelled from the spec: the upstream proxy manager's resolve rule
(spec 4.3); its source is not in the repository slice. Returns the proxy
URL to traverse, or none for a direct connection. `HTTPS_PROXY` is used
only for SSL targets (overriding `HTTP_PROXY` there); a NO_PROXY bypass
forces direct. -/
def resolveUpstream (httpProxy httpsProxy : Option String) (bypass : Bool) (isSSL : Bool) :
    Option String :=
  if bypass then none
  else if isSSL then
    match httpsProxy with
    | some u => some u
    | none => httpProxy
  else httpProxy

/-- Modelled from the spec: `IUpstreamProxyManager.setUpstreamProxyConfig`
(spec 4.3); its source is not in the repository slice. It decides whether
the connection traverses an upstream proxy and, when it does, writes the
routing information into the agent options; it touches no other option
field. -/
def setUpstreamProxyConfig (cfg : UpstreamConfig) (targetHost : CompleteUrl) (isSSL : Bool)
    (opts : AgentOptions) : Bool × AgentOptions :=
  match resolveUpstream cfg.httpProxy cfg.httpsProxy (cfg.noProxyBypass targetHost) isSSL with
  | some u => (true, { opts with proxyUrl := some u })
  | none => (false, opts)

/-- `nodeTlsRejectUnauthorized` of the manager: reads the environment
variable `NODE_TLS_REJECT_UNAUTHORIZED` (`none` when unset); an empty
string is falsy in JavaScript, so it falls through to `true`. -/
def nodeTlsRejectUnauthorized (env : Option String) : Bool :=
  match env with
  | some v => if v = "" then true else decide (v ≠ "0")
  | none => true

/-- `getAgent` of the manager: builds the pinned upstream agent for a
context. Takes the environment variable value and the upstream proxy
configuration as explicit parameters. -/
def getAgent (env : Option String) (cfg : UpstreamConfig) (isSSL : Bool)
    (targetHost : CompleteUrl) : Agent :=
  let agentOptions : AgentOptions :=
    { keepAlive := true
      maxSockets := 1
      rejectUnauthorized := nodeTlsRejectUnauthorized env && !targetHost.isLocalhost }
  let resolved := setUpstreamProxyConfig cfg targetHost isSSL agentOptions
  let useUpstreamProxy := resolved.1
  let agentOptions := resolved.2
  if useUpstreamProxy then
    { kind := if isSSL then .httpsProxyAgent else .httpProxyAgent, options := agentOptions }
  else
    { kind := if isSSL then .httpsAgent else .httpAgent, options := agentOptions }

/-- Lookup in a JavaScript object used as a hash table
(`key in obj` / `obj[key]`). -/
def hashGet {α : Type} : List (String × α) → String → Option α
  | [], _ => none
  | p :: rest, k => if p.1 = k then some p.2 else hashGet rest k

/-- Assignment in a JavaScript object used as a hash table
(`obj[key] = v`): overwrites an existing key, otherwise appends in
iteration order. -/
def hashSet {α : Type} : List (String × α) → String → α → List (String × α)
  | [], k, v => [(k, v)]
  | p :: rest, k, v => if p.1 = k then (k, v) :: rest else p :: hashSet rest k v

/-- Deletion in a JavaScript object used as a hash table
(`delete obj[key]`). -/
def hashDelete {α : Type} : List (String × α) → String → List (String × α)
  | [], _ => []
  | p :: rest, k => if p.1 = k then hashDelete rest k else p :: hashDelete rest k

/-- One side effect of a manager operation, recorded in order. -/
inductive Event where
  /-- `clientSocket.once("close", listener)` was registered for this client. -/
  | registeredCloseListener (clientAddress : String)
  /-- `clientSocket.removeListener("close", listener)` was called for this client. -/
  | removedCloseListener (clientAddress : String)
  /-- `context.destroy(event)` was called on the context of this client. -/
  | destroyedContext (clientAddress : String) (event : String)
  /-- `socket.end()` was called on this socket. -/
  | socketEnded (sock : Socket)
  deriving DecidableEq, Repr

/-- The per-downstream-socket state object (`IConnectionContext`), reduced
to the fields the manager reads or writes. `socketCloseListener` records
the client address the registered close listener was bound to (`none`
before registration). -/
structure ConnectionContext where
  clientAddress : String := ""
  agent : Option Agent := none
  clientSocket : Option Socket := none
  socketCloseListener : Option String := none
  configApiConnection : Bool := false
  deriving DecidableEq, Repr

/-- An opaque CONNECT passthrough: the two raw sockets
(`SslTunnel` model). The fields are optional to mirror the manager's
truthiness check on `tunnel.target`. -/
structure SslTunnel where
  client : Option Socket
  target : Option Socket
  deriving DecidableEq, Repr

/-- The mutable state of a `ConnectionContextManager` instance. -/
structure ManagerState where
  agentCount : Nat := 0
  connectionContexts : List (String × ConnectionContext) := []
  tunnels : List (String × SslTunnel) := []
  deriving DecidableEq, Repr

/-- `getClientAddress`: the table key for a downstream socket,
`remoteAddress + ":" + remotePort`. -/
def getClientAddress (clientSocket : Socket) : String :=
  clientSocket.remoteAddress ++ ":" ++ toString clientSocket.remotePort

/-- `createConnectionContext`: returns the stored context when one exists
for the socket's client address; otherwise builds an agent, creates a
context, stores it and registers a close listener on the downstream
socket. Returns the context, the new state and the event trace. -/
def createConnectionContext (st : ManagerState) (env : Option String) (cfg : UpstreamConfig)
    (clientSocket : Socket) (isSSL : Bool) (targetHost : CompleteUrl) :
    ConnectionContext × ManagerState × List Event :=
  let clientAddress := getClientAddress clientSocket
  match hashGet st.connectionContexts clientAddress with
  | some context => (context, st, [])
  | none =>
    let agent := getAgent env cfg isSSL targetHost
    let context : ConnectionContext :=
      { clientAddress := clientAddress
        agent := some agent
        clientSocket := some clientSocket
        socketCloseListener := some clientAddress
        configApiConnection := false }
    ( context,
      { st with
          agentCount := st.agentCount + 1
          connectionContexts := hashSet st.connectionContexts clientAddress context },
      [Event.registeredCloseListener clientAddress] )

/-- `getConnectionContextFromClientSocket`: the stored context for the
socket's client address, if any. -/
def getConnectionContextFromClientSocket (st : ManagerState) (clientSocket : Socket) :
    Option ConnectionContext :=
  let clientAddress := getClientAddress clientSocket
  match hashGet st.connectionContexts clientAddress with
  | some context => some context
  | none => none

/-- Loop body of `removeAllConnectionContexts`: a config-API context is
kept (re-keyed by its own `clientAddress`); any other context first has
its close listener removed from the downstream socket (optional chaining:
skipped when the socket is absent), then is destroyed. -/
def removeAllStep (event : String)
    (acc : List (String × ConnectionContext) × List Event) (p : String × ConnectionContext) :
    List (String × ConnectionContext) × List Event :=
  let context := p.2
  if context.configApiConnection then
    (hashSet acc.1 context.clientAddress context, acc.2)
  else
    let listenerEvents :=
      match context.clientSocket with
      | some _ => [Event.removedCloseListener context.clientAddress]
      | none => []
    (acc.1, acc.2 ++ listenerEvents ++ [Event.destroyedContext context.clientAddress event])

/-- `removeAllConnectionContexts`: destroys every tracked context except
the config-API ones, which become the new table. -/
def removeAllConnectionContexts (st : ManagerState) (event : String) :
    ManagerState × List Event :=
  let result := st.connectionContexts.foldl (removeAllStep event) ([], [])
  ({ st with connectionContexts := result.1 }, result.2)

/-- `removeAgent`: when a context is stored for the client address, removes
its close listener from the downstream socket (optional chaining), destroys
it and deletes the table entry; otherwise does nothing. -/
def removeAgent (st : ManagerState) (event : String) (clientAddress : String) :
    ManagerState × List Event :=
  match hashGet st.connectionContexts clientAddress with
  | some context =>
    let listenerEvents :=
      match context.clientSocket with
      | some _ => [Event.removedCloseListener clientAddress]
      | none => []
    ( { st with connectionContexts := hashDelete st.connectionContexts clientAddress },
      listenerEvents ++ [Event.destroyedContext clientAddress event] )
  | none => (st, [])

/-- `addTunnel`: stores the socket pair under the client's address. -/
def addTunnel (st : ManagerState) (client target : Socket) : ManagerState :=
  { st with
      tunnels := hashSet st.tunnels (getClientAddress client)
        { client := some client, target := some target } }

/-- `removeTunnel`: deletes the tunnel stored under the client's address,
if any. -/
def removeTunnel (st : ManagerState) (client : Socket) : ManagerState :=
  { st with tunnels := hashDelete st.tunnels (getClientAddress client) }

/-- Loop body of `removeAndCloseAllTunnels`: ends the target-side socket
when it is present. -/
def endTunnelStep (tr : List Event) (p : String × SslTunnel) : List Event :=
  match p.2.target with
  | some t => tr ++ [Event.socketEnded t]
  | none => tr

/-- `removeAndCloseAllTunnels`: ends every tunnel's target-side socket,
then empties the tunnel table. -/
def removeAndCloseAllTunnels (st : ManagerState) (event : String) :
    ManagerState × List Event :=
  let trace := st.tunnels.foldl endTunnelStep []
  ({ st with tunnels := [] }, trace)

/-- State of a `HttpMitmProxyFacade`: the `_ntlmProxyListening` flag and a
counter of how many times `close()` was invoked on the wrapped MITM
proxy. -/
structure HttpMitmProxyFacade where
  ntlmProxyListening : Bool := false
  mitmCloseCalls : Nat := 0
  deriving DecidableEq, Repr

namespace HttpMitmProxyFacade

/-- `listen`: on a successful bind (the listen callback got no error) the
promise resolves and `_ntlmProxyListening` is set; on an error the promise
rejects and the flag is untouched. -/
def listen (s : HttpMitmProxyFacade) (err : Bool) : HttpMitmProxyFacade :=
  if err then s else { s with ntlmProxyListening := true }

/-- `close`: closes the wrapped MITM proxy and clears the flag, but only
while `_ntlmProxyListening` is set. -/
def close (s : HttpMitmProxyFacade) : HttpMitmProxyFacade :=
  if s.ntlmProxyListening then
    { ntlmProxyListening := false, mitmCloseCalls := s.mitmCloseCalls + 1 }
  else s

end HttpMitmProxyFacade

/-- Result of Node's legacy `url.parse`, reduced to the fields
`validatePortsFile` reads (`null` becomes `none`). -/
structure UrlParts where
  protocol : Option String
  hostname : Option String
  port : Option String
  deriving DecidableEq, Repr

/-- The JSON object stored in the ports file, with its two expected fields
(`none` when the field is absent). -/
structure PortsFileContent where
  configApiUrl : Option String
  ntlmProxyUrl : Option String
  deriving DecidableEq, Repr

/-- What reading the ports file yields: the file is missing, its content is
not valid JSON, or it parsed to a JSON value (`none` models JSON `null` or
a non-object). -/
inductive PortsFileRead where
  | missing
  | invalidJson
  | json (ports : Option PortsFileContent)
  deriving DecidableEq, Repr

/-- JavaScript truthiness of an optional string: `undefined`, `null` and
`""` are falsy. -/
def truthyStr : Option String → Bool
  | none => false
  | some s => decide (s ≠ "")

/-- The error the `parsePortsFile` callback receives on failure. -/
inductive PortsError where
  /-- The JSON.parse exception was forwarded. -/
  | jsonParseError
  /-- `new Error("Cannot parse " + portsFile)`: validation failed. -/
  | cannotParse
  /-- `new Error("cypress-ntlm-auth proxy does not seem to be running...")`. -/
  | notRunning
  deriving DecidableEq, Repr

/-- The pair of arguments `parsePortsFile` passes to its callback:
either a ports value and no error, or no ports value and an error. -/
inductive PortsCallback where
  | success (ports : PortsFileContent)
  | failure (e : PortsError)
  deriving DecidableEq, Repr

/-- `validatePortsFile`: the parsed value must be truthy, both URL fields
must be truthy strings, and each must `url.parse` to truthy `protocol`,
`hostname` and `port`. `urlParse` stands for Node's `url.parse`. -/
def validatePortsFile (urlParse : String → UrlParts) (ports : Option PortsFileContent) : Bool :=
  match ports with
  | none => false
  | some p =>
    if !truthyStr p.configApiUrl || !truthyStr p.ntlmProxyUrl then false
    else
      let u1 := urlParse (p.configApiUrl.getD "")
      if !truthyStr u1.protocol || !truthyStr u1.hostname || !truthyStr u1.port then false
      else
        let u2 := urlParse (p.ntlmProxyUrl.getD "")
        if !truthyStr u2.protocol || !truthyStr u2.hostname || !truthyStr u2.port then false
        else true

/-- `parsePortsFile`: reads the ports file and calls back with the parsed
ports on success, with an error otherwise. The file-system read and
JSON.parse outcome are summarized by the `PortsFileRead` argument. -/
def parsePortsFile (urlParse : String → UrlParts) (file : PortsFileRead) : PortsCallback :=
  match file with
  | .missing => .failure .notRunning
  | .invalidJson => .failure .jsonParseError
  | .json ports =>
    if validatePortsFile urlParse ports then
      .success (ports.getD { configApiUrl := none, ntlmProxyUrl := none })
    else .failure .cannotParse

/-- The authorization header carried by one upstream leg of the
interceptor. -/
inductive AuthHeader where
  | noAuth
  | ntlmType1
  | ntlmType3
  deriving DecidableEq, Repr

/-- One request observed upstream of the proxy. -/
structure UpstreamRequest where
  method : String
  path : String
  auth : AuthHeader
  deriving DecidableEq, Repr

/-- One response from the origin server: status, whether its
WWW-Authenticate header carries an NTLM/Negotiate challenge, and its
body. -/
structure UpstreamResponse where
  status : Nat
  ntlmChallenge : Bool
  body : String
  deriving DecidableEq, Repr

/-- Modelled from the spec: the request interceptor's state machine for a
single fresh request (spec 4.5); its source is not in the repository
slice. With no credential match the request is forwarded once and the
response returned verbatim. With a match, the request is forwarded; on a
401 NTLM challenge the original request is replayed with a Type 1 header,
and on a second 401 challenge replayed once more with the Type 3 header,
whose response (the final one) is returned. The origin is a function from
the leg's auth header to its response; the returned list is every request
observed upstream, in order. -/
def interceptRequest (credentialMatch : Bool) (origin : AuthHeader → UpstreamResponse)
    (method path : String) : List UpstreamRequest × UpstreamResponse :=
  if credentialMatch then
    let first := origin .noAuth
    if first.status = 401 ∧ first.ntlmChallenge = true then
      let challenge := origin .ntlmType1
      if challenge.status = 401 ∧ challenge.ntlmChallenge = true then
        ( [ { method := method, path := path, auth := .noAuth },
            { method := method, path := path, auth := .ntlmType1 },
            { method := method, path := path, auth := .ntlmType3 } ],
          origin .ntlmType3 )
      else
        ( [ { method := method, path := path, auth := .noAuth },
            { method := method, path := path, auth := .ntlmType1 } ],
          challenge )
    else ([{ method := method, path := path, auth := .noAuth }], first)
  else ([{ method := method, path := path, auth := .noAuth }], origin .noAuth)

/-- Modelled from the spec: how many requests the upstream proxy fixture
observes for one client request of `legs` upstream legs — all of them when
the resolved route traverses the upstream proxy, none when the connection
is direct (spec 4.3 and testable property 8). -/
def upstreamProxyObservedRequests (httpProxy httpsProxy : Option String)
    (bypass isSSL : Bool) (legs : Nat) : Nat :=
  match resolveUpstream httpProxy httpsProxy bypass isSSL with
  | some _ => legs
  | none => 0

/-! ### Helper lemmas about the hash-table model -/

theorem hashGet_eq_none_iff {α : Type} (l : List (String × α)) (k : String) :
    hashGet l k = none ↔ ∀ p ∈ l, p.1 ≠ k := by
  induction l with
  | nil => simp [hashGet]
  | cons p rest ih =>
    by_cases h : p.1 = k
    · simp [hashGet, h]
    · simp [hashGet, h, ih]

theorem hashSet_of_get_none {α : Type} {l : List (String × α)} {k : String}
    (h : hashGet l k = none) (v : α) : hashSet l k v = l ++ [(k, v)] := by
  induction l with
  | nil => simp [hashSet]
  | cons p rest ih =>
    by_cases hp : p.1 = k
    · simp [hashGet, hp] at h
    · simp [hashGet, hp] at h
      simp [hashSet, hp, ih h]

theorem hashGet_hashDelete_self {α : Type} (l : List (String × α)) (k : String) :
    hashGet (hashDelete l k) k = none := by
  induction l with
  | nil => simp [hashDelete, hashGet]
  | cons p rest ih =>
    by_cases hp : p.1 = k
    · simp [hashDelete, hp, ih]
    · simp [hashDelete, hashGet, hp, ih]

theorem hashGet_append_of_none {α : Type} {l₁ : List (String × α)} {k : String}
    (h : hashGet l₁ k = none) (l₂ : List (String × α)) :
    hashGet (l₁ ++ l₂) k = hashGet l₂ k := by
  induction l₁ with
  | nil => simp
  | cons p rest ih =>
    by_cases hp : p.1 = k
    · simp [hashGet, hp] at h
    · simp [hashGet, hp] at h ⊢
      exact ih h

theorem hashGet_hashSet_preserves {α : Type} (l : List (String × α)) (k : String) (v : α) :
    hashGet (hashSet l k v) k = some v := by
  induction l with
  | nil => simp [hashSet, hashGet]
  | cons p rest ih =>
    by_cases hp : p.1 = k
    · simp [hashSet, hp, hashGet]
    · simp [hashSet, hashGet, hp, ih]

/-! ### Claims about `getAgent` -/

theorem getAgent_options (env : Option String) (cfg : UpstreamConfig) (isSSL : Bool)
    (targetHost : CompleteUrl) :
    (getAgent env cfg isSSL targetHost).options.maxSockets = 1 ∧
    (getAgent env cfg isSSL targetHost).options.keepAlive = true ∧
    (getAgent env cfg isSSL targetHost).options.rejectUnauthorized =
      (nodeTlsRejectUnauthorized env && !targetHost.isLocalhost) := by
  unfold getAgent setUpstreamProxyConfig
  cases h : resolveUpstream cfg.httpProxy cfg.httpsProxy (cfg.noProxyBypass targetHost) isSSL <;>
    cases isSSL <;> simp

/-- C1: every agent built by `getAgent` is constructed with options that
set `maxSockets` to exactly 1 and `keepAlive` to `true`, for every
environment, upstream proxy configuration, `isSSL` flag and target
host. -/
theorem getAgent_maxSockets_one_keepAlive (env : Option String) (cfg : UpstreamConfig)
    (isSSL : Bool) (targetHost : CompleteUrl) :
    (getAgent env cfg isSSL targetHost).options.maxSockets = 1 ∧
    (getAgent env cfg isSSL targetHost).options.keepAlive = true :=
  ⟨(getAgent_options env cfg isSSL targetHost).1, (getAgent_options env cfg isSSL targetHost).2.1⟩

theorem nodeTlsRejectUnauthorized_eq (env : Option String) :
    nodeTlsRejectUnauthorized env = decide (env ≠ some "0") := by
  cases env with
  | none => simp [nodeTlsRejectUnauthorized]
  | some v =>
    by_cases hv : v = ""
    · subst hv; simp [nodeTlsRejectUnauthorized]
    · simp [nodeTlsRejectUnauthorized, hv]

/-- C7: when only an HTTPS upstream proxy is configured (`HTTPS_PROXY` set,
`HTTP_PROXY` unset), the resolved route for a plain-HTTP target is direct
and the upstream proxy observes zero requests for it, whatever the NO_PROXY
bypass decision and however many upstream legs the request takes. -/
theorem httpsOnlyProxy_direct_for_http (u : String) (bypass : Bool) (legs : Nat) :
    resolveUpstream none (some u) bypass false = none ∧
    upstreamProxyObservedRequests none (some u) bypass false legs = 0 := by
  constructor
  · cases bypass <;> simp [resolveUpstream]
  · cases bypass <;> simp [upstreamProxyObservedRequests, resolveUpstream]

/-- C5: the `rejectUnauthorized` option of every agent built by `getAgent`
is `true` exactly when `NODE_TLS_REJECT_UNAUTHORIZED` is unset or differs
from `"0"` and the target is not localhost; so verification is disabled
for every localhost target and for every target when the variable is
`"0"`. -/
theorem getAgent_rejectUnauthorized_iff (env : Option String) (cfg : UpstreamConfig)
    (isSSL : Bool) (targetHost : CompleteUrl) :
    (getAgent env cfg isSSL targetHost).options.rejectUnauthorized = true ↔
      ((env = none ∨ env ≠ some "0") ∧ targetHost.isLocalhost = false) := by
  rw [(getAgent_options env cfg isSSL targetHost).2.2, nodeTlsRejectUnauthorized_eq]
  cases env with
  | none => simp
  | some v =>
    by_cases hv : v = "0"
    · subst hv; simp
    · simp [hv]

/-! ### Claims about the context table -/

/-- C4: `createConnectionContext` keeps at most one context per client
address: a call for a stored address returns the stored context with the
state unchanged and no new agent; a call for a fresh address stores a new
context built from `getAgent` under that address, counts the agent,
registers the close listener, and keeps the table keys pairwise distinct.
`getConnectionContextFromClientSocket` is exactly the table lookup. -/
theorem createConnectionContext_unique_per_clientAddress
    (st : ManagerState) (env : Option String) (cfg : UpstreamConfig)
    (clientSocket : Socket) (isSSL : Bool) (targetHost : CompleteUrl) :
    (∀ ctx, hashGet st.connectionContexts (getClientAddress clientSocket) = some ctx →
      createConnectionContext st env cfg clientSocket isSSL targetHost = (ctx, st, [])) ∧
    (hashGet st.connectionContexts (getClientAddress clientSocket) = none →
      (createConnectionContext st env cfg clientSocket isSSL targetHost).1 =
        { clientAddress := getClientAddress clientSocket
          agent := some (getAgent env cfg isSSL targetHost)
          clientSocket := some clientSocket
          socketCloseListener := some (getClientAddress clientSocket)
          configApiConnection := false } ∧
      (createConnectionContext st env cfg clientSocket isSSL targetHost).2.1.connectionContexts =
        st.connectionContexts ++ [(getClientAddress clientSocket,
          (createConnectionContext st env cfg clientSocket isSSL targetHost).1)] ∧
      (createConnectionContext st env cfg clientSocket isSSL targetHost).2.1.agentCount =
        st.agentCount + 1 ∧
      (createConnectionContext st env cfg clientSocket isSSL targetHost).2.2 =
        [Event.registeredCloseListener (getClientAddress clientSocket)] ∧
      hashGet
          (createConnectionContext st env cfg clientSocket isSSL targetHost).2.1.connectionContexts
          (getClientAddress clientSocket) =
        some (createConnectionContext st env cfg clientSocket isSSL targetHost).1 ∧
      (st.connectionContexts.Pairwise (fun a b => a.1 ≠ b.1) →
        (createConnectionContext st env cfg clientSocket isSSL
            targetHost).2.1.connectionContexts.Pairwise (fun a b => a.1 ≠ b.1))) ∧
    getConnectionContextFromClientSocket st clientSocket =
      hashGet st.connectionContexts (getClientAddress clientSocket) := by
  refine ⟨?_, ?_, ?_⟩
  · intro ctx h
    simp [createConnectionContext, h]
  · intro h
    refine ⟨?_, ?_, ?_, ?_, ?_, ?_⟩
    · simp [createConnectionContext, h]
    · simp only [createConnectionContext, h]
      exact hashSet_of_get_none h _
    · simp [createConnectionContext, h]
    · simp [createConnectionContext, h]
    · simp only [createConnectionContext, h]
      exact hashGet_hashSet_preserves _ _ _
    · intro hpw
      simp only [createConnectionContext, h]
      rw [hashSet_of_get_none h]
      rw [List.pairwise_append]
      refine ⟨hpw, by simp, ?_⟩
      intro a ha b hb
      simp at hb
      rw [hb]
      exact (hashGet_eq_none_iff _ _).mp h a ha
  · simp only [getConnectionContextFromClientSocket]
    cases h : hashGet st.connectionContexts (getClientAddress clientSocket) <;> simp

/-- C9: `removeAgent` for a client address with no stored context leaves
the state unchanged and produces no effect, and a second `removeAgent`
for the same address is always such a no-op, so removal is idempotent. -/
theorem removeAgent_absent_noop (st : ManagerState) (event event2 clientAddress : String) :
    (hashGet st.connectionContexts clientAddress = none →
      removeAgent st event clientAddress = (st, [])) ∧
    removeAgent (removeAgent st event clientAddress).1 event2 clientAddress =
      ((removeAgent st event clientAddress).1, []) := by
  constructor
  · intro h
    simp [removeAgent, h]
  · cases h : hashGet st.connectionContexts clientAddress with
    | none =>
      simp [removeAgent, h]
    | some ctx =>
      have h1 : (removeAgent st event clientAddress).1 =
          { st with connectionContexts := hashDelete st.connectionContexts clientAddress } := by
        simp [removeAgent, h]
      rw [h1]
      simp [removeAgent, hashGet_hashDelete_self]

/-! ### Claim about the MITM proxy facade -/

/-- C10: `HttpMitmProxyFacade.close` is idempotent, is a no-op while the
facade is not listening, and after a successful `listen` any positive
number of `close` calls invokes the wrapped proxy's close exactly once. -/
theorem close_idempotent (s : HttpMitmProxyFacade) :
    HttpMitmProxyFacade.close (HttpMitmProxyFacade.close s) = HttpMitmProxyFacade.close s ∧
    (s.ntlmProxyListening = false → HttpMitmProxyFacade.close s = s) ∧
    ∀ n, 1 ≤ n →
      HttpMitmProxyFacade.close^[n] (HttpMitmProxyFacade.listen s false) =
        { ntlmProxyListening := false, mitmCloseCalls := s.mitmCloseCalls + 1 } := by
  refine ⟨?_, ?_, ?_⟩
  · by_cases hl : s.ntlmProxyListening <;> simp [HttpMitmProxyFacade.close, hl]
  · intro hl
    simp [HttpMitmProxyFacade.close, hl]
  · intro n hn
    obtain ⟨m, rfl⟩ := Nat.exists_eq_add_of_le hn
    induction m with
    | zero =>
      simp [HttpMitmProxyFacade.listen, HttpMitmProxyFacade.close]
    | succ k ih =>
      rw [show 1 + (k + 1) = (1 + k) + 1 by omega, Function.iterate_succ_apply', ih (by omega)]
      simp [HttpMitmProxyFacade.close]

theorem removeAll_foldl (event : String) (l : List (String × ConnectionContext)) :
    ∀ (acc : List (String × ConnectionContext)) (tr : List Event),
      (∀ p ∈ l, p.1 = p.2.clientAddress) →
      (∀ p ∈ l, p.2.clientSocket.isSome = true) →
      l.Pairwise (fun a b => a.1 ≠ b.1) →
      (∀ p ∈ l, hashGet acc p.1 = none) →
      l.foldl (removeAllStep event) (acc, tr) =
        (acc ++ l.filter (fun p => p.2.configApiConnection),
         tr ++ l.flatMap (fun p =>
           if p.2.configApiConnection then []
           else [Event.removedCloseListener p.1, Event.destroyedContext p.1 event])) := by
  induction l with
  | nil =>
    intro acc tr _ _ _ _
    simp
  | cons p rest ih =>
    intro acc tr hkeys hsock hnodup hfresh
    have hkey : p.1 = p.2.clientAddress := hkeys p (by simp)
    have hs : p.2.clientSocket.isSome = true := hsock p (by simp)
    obtain ⟨s, hs2⟩ := Option.isSome_iff_exists.mp hs
    have hpw := List.pairwise_cons.mp hnodup
    rw [List.foldl_cons]
    by_cases hc : p.2.configApiConnection
    · have hstep : removeAllStep event (acc, tr) p = (acc ++ [p], tr) := by
        simp only [removeAllStep, hc, if_pos]
        rw [← hkey, hashSet_of_get_none (hfresh p (by simp))]
      rw [hstep,
        ih (acc ++ [p]) tr (fun q hq => hkeys q (by simp [hq]))
          (fun q hq => hsock q (by simp [hq])) hpw.2
          (fun q hq => by
            rw [hashGet_append_of_none (hfresh q (by simp [hq]))]
            simp [hashGet, hpw.1 q hq])]
      simp [List.filter_cons, hc]
    · have hstep : removeAllStep event (acc, tr) p =
          (acc, tr ++ [Event.removedCloseListener p.1, Event.destroyedContext p.1 event]) := by
        simp only [removeAllStep, hc, ← hkey, hs2]
        simp
      rw [hstep,
        ih acc (tr ++ [Event.removedCloseListener p.1, Event.destroyedContext p.1 event])
          (fun q hq => hkeys q (by simp [hq])) (fun q hq => hsock q (by simp [hq])) hpw.2
          (fun q hq => hfresh q (by simp [hq]))]
      simp [List.filter_cons, hc]

/-- C3: `removeAllConnectionContexts` keeps exactly the contexts flagged
`configApiConnection` in the table; every other context has its close
listener removed from its downstream socket immediately before being
destroyed, in table order; and no `configApiConnection` context is ever
destroyed. Hypotheses: every table entry is keyed by its context's
`clientAddress`, has a downstream socket, and the keys are distinct —
all maintained by `createConnectionContext`. -/
theorem removeAllConnectionContexts_spec (st : ManagerState) (event : String)
    (hkeys : ∀ p ∈ st.connectionContexts, p.1 = p.2.clientAddress)
    (hsock : ∀ p ∈ st.connectionContexts, p.2.clientSocket.isSome = true)
    (hnodup : st.connectionContexts.Pairwise (fun a b => a.1 ≠ b.1)) :
    (removeAllConnectionContexts st event).1.connectionContexts =
      st.connectionContexts.filter (fun p => p.2.configApiConnection) ∧
    (removeAllConnectionContexts st event).2 =
      st.connectionContexts.flatMap (fun p =>
        if p.2.configApiConnection then []
        else [Event.removedCloseListener p.1, Event.destroyedContext p.1 event]) ∧
    ∀ p ∈ st.connectionContexts, p.2.configApiConnection = true →
      ∀ e, Event.destroyedContext p.1 e ∉ (removeAllConnectionContexts st event).2 := by
  have h := removeAll_foldl event st.connectionContexts [] [] hkeys hsock hnodup
    (fun q _ => rfl)
  have h1 : (removeAllConnectionContexts st event).1.connectionContexts =
      st.connectionContexts.filter (fun p => p.2.configApiConnection) := by
    simp [removeAllConnectionContexts, h]
  have h2 : (removeAllConnectionContexts st event).2 =
      st.connectionContexts.flatMap (fun p =>
        if p.2.configApiConnection then []
        else [Event.removedCloseListener p.1, Event.destroyedContext p.1 event]) := by
    simp [removeAllConnectionContexts, h]
  refine ⟨h1, h2, ?_⟩
  intro p hp hcfg e hmem
  rw [h2] at hmem
  obtain ⟨q, hq, hin⟩ := List.mem_flatMap.mp hmem
  by_cases hqc : q.2.configApiConnection
  · rw [if_pos hqc] at hin
    exact absurd hin (List.not_mem_nil _)
  · rw [if_neg hqc] at hin
    have hpq1 : p.1 = q.1 := by
      rcases List.mem_cons.mp hin with h1 | h1
      · exact absurd h1 (by simp)
      · rcases List.mem_cons.mp h1 with h2 | h2
        · injection h2 with ha hb
        · simp at h2
    have hne : p ≠ q := by
      intro heq
      rw [heq] at hcfg
      exact hqc hcfg
    have hsym : Symmetric (fun a b : String × ConnectionContext => a.1 ≠ b.1) :=
      fun _ _ hab hba => hab hba.symm
    exact (List.Pairwise.forall hsym hnodup hp hq hne) hpq1

theorem endTunnel_foldl (l : List (String × SslTunnel)) :
    ∀ tr : List Event,
      l.foldl endTunnelStep tr =
        tr ++ l.filterMap (fun p => p.2.target.map Event.socketEnded) := by
  induction l with
  | nil =>
    intro tr
    simp
  | cons p rest ih =>
    intro tr
    rw [List.foldl_cons]
    cases ht : p.2.target with
    | none => simp [endTunnelStep, ht, ih]
    | some t => simp [endTunnelStep, ht, ih]

/-- C6: `removeAndCloseAllTunnels` ends the target-side socket of every
tracked tunnel (the trace consists of exactly those target-side end calls,
in table order, and nothing else) and afterwards the tunnel table is
empty. The hypothesis states that every tracked tunnel has a target
socket, as guaranteed by `addTunnel`. -/
theorem removeAndCloseAllTunnels_ends_all (st : ManagerState) (event : String)
    (hwf : ∀ p ∈ st.tunnels, p.2.target.isSome = true) :
    (removeAndCloseAllTunnels st event).1.tunnels = [] ∧
    (removeAndCloseAllTunnels st event).2 =
      st.tunnels.filterMap (fun p => p.2.target.map Event.socketEnded) ∧
    ∀ p ∈ st.tunnels, ∃ t, p.2.target = some t ∧
      Event.socketEnded t ∈ (removeAndCloseAllTunnels st event).2 := by
  have h2 : (removeAndCloseAllTunnels st event).2 =
      st.tunnels.filterMap (fun p => p.2.target.map Event.socketEnded) := by
    simp [removeAndCloseAllTunnels, endTunnel_foldl]
  refine ⟨rfl, h2, ?_⟩
  intro p hp
  obtain ⟨t, ht⟩ := Option.isSome_iff_exists.mp (hwf p hp)
  refine ⟨t, ht, ?_⟩
  rw [h2]
  exact List.mem_filterMap.mpr ⟨p, hp, by rw [ht]; rfl⟩

/-! ### Claims about the interceptor and the ports file -/

/-- C2: for a GET, POST, PUT or DELETE request to a host whose credentials
are configured, a fresh authentication against an NTLM origin (one that
answers the first two legs with 401 NTLM challenges) produces exactly 3
upstream requests and the final leg's response; for a host not in the
credential store exactly 1 upstream request is made and the origin's
response — its 401 — is surfaced verbatim. -/
theorem interceptRequest_leg_counts (origin : AuthHeader → UpstreamResponse)
    (method path : String)
    (hm : method ∈ (["GET", "POST", "PUT", "DELETE"] : List String))
    (h1 : (origin .noAuth).status = 401 ∧ (origin .noAuth).ntlmChallenge = true)
    (h2 : (origin .ntlmType1).status = 401 ∧ (origin .ntlmType1).ntlmChallenge = true) :
    ((interceptRequest true origin method path).1.length = 3 ∧
      (interceptRequest true origin method path).2 = origin .ntlmType3) ∧
    interceptRequest false origin method path =
      ([{ method := method, path := path, auth := .noAuth }], origin .noAuth) := by
  constructor
  · simp [interceptRequest, h1.1, h1.2, h2.1, h2.2]
  · simp [interceptRequest]

theorem validatePortsFile_some_iff (urlParse : String → UrlParts) (p : PortsFileContent) :
    validatePortsFile urlParse (some p) = true ↔
      (truthyStr p.configApiUrl = true ∧ truthyStr p.ntlmProxyUrl = true ∧
       truthyStr (urlParse (p.configApiUrl.getD "")).protocol = true ∧
       truthyStr (urlParse (p.configApiUrl.getD "")).hostname = true ∧
       truthyStr (urlParse (p.configApiUrl.getD "")).port = true ∧
       truthyStr (urlParse (p.ntlmProxyUrl.getD "")).protocol = true ∧
       truthyStr (urlParse (p.ntlmProxyUrl.getD "")).hostname = true ∧
       truthyStr (urlParse (p.ntlmProxyUrl.getD "")).port = true) := by
  simp only [validatePortsFile]
  split_ifs with hA hB hC <;> simp_all <;> (intros; simp_all)

/-- C8: `parsePortsFile` hands its callback a ports value (and no error)
exactly when the ports file exists, holds valid JSON, and the parsed value
has truthy `configApiUrl` and `ntlmProxyUrl` fields each of which
`url.parse`s to truthy `protocol`, `hostname` and `port`; in every other
case the callback gets no ports value and an error. -/
theorem parsePortsFile_success_iff (urlParse : String → UrlParts) (file : PortsFileRead)
    (p : PortsFileContent) :
    (parsePortsFile urlParse file = .success p ↔
      (file = .json (some p) ∧
       truthyStr p.configApiUrl = true ∧ truthyStr p.ntlmProxyUrl = true ∧
       truthyStr (urlParse (p.configApiUrl.getD "")).protocol = true ∧
       truthyStr (urlParse (p.configApiUrl.getD "")).hostname = true ∧
       truthyStr (urlParse (p.configApiUrl.getD "")).port = true ∧
       truthyStr (urlParse (p.ntlmProxyUrl.getD "")).protocol = true ∧
       truthyStr (urlParse (p.ntlmProxyUrl.getD "")).hostname = true ∧
       truthyStr (urlParse (p.ntlmProxyUrl.getD "")).port = true)) ∧
    ((∀ q, parsePortsFile urlParse file ≠ .success q) →
      ∃ e, parsePortsFile urlParse file = .failure e) := by
  constructor
  · cases file with
    | missing => simp [parsePortsFile]
    | invalidJson => simp [parsePortsFile]
    | json ports =>
      cases ports with
      | none =>
        simp [parsePortsFile, validatePortsFile]
      | some q =>
        by_cases hv : validatePortsFile urlParse (some q) = true
        · have hconds := (validatePortsFile_some_iff urlParse q).mp hv
          constructor
          · intro hsuc
            simp [parsePortsFile, hv] at hsuc
            rw [← hsuc]
            exact ⟨rfl, hconds⟩
          · intro hconj
            have hq : q = p := by
              have h3 := hconj.1
              simp only [PortsFileRead.json.injEq, Option.some.injEq] at h3
              exact h3
            subst hq
            simp [parsePortsFile, hv]
        · constructor
          · intro hsuc
            simp [parsePortsFile, hv] at hsuc
          · intro hconj
            have hq : q = p := by
              have h3 := hconj.1
              simp only [PortsFileRead.json.injEq, Option.some.injEq] at h3
              exact h3
            subst hq
            exact absurd ((validatePortsFile_some_iff urlParse q).mpr hconj.2) hv
  · intro hns
    cases hres : parsePortsFile urlParse file with
    | success q => exact absurd hres (hns q)
    | failure e => exact ⟨e, rfl⟩

/-! ### Concrete inputs for witnesses -/

/-- A startup configuration with no upstream proxy at all. -/
def cfgDirect : UpstreamConfig :=
  { httpProxy := none, httpsProxy := none, noProxyBypass := fun _ => false }

/-- A concrete downstream socket. -/
def sockA : Socket := { remoteAddress := "127.0.0.1", remotePort := 4711 }

/-- A concrete target-side socket of a tunnel. -/
def sockT : Socket := { remoteAddress := "93.184.216.34", remotePort := 443 }

/-- A concrete localhost target. -/
def urlLocal : CompleteUrl := { href := "http://localhost:5000/", isLocalhost := true }

/-- A tracked context serving ordinary proxy traffic. -/
def ctxWeb : ConnectionContext :=
  { clientAddress := "127.0.0.1:4711"
    agent := none
    clientSocket := some sockA
    socketCloseListener := some "127.0.0.1:4711"
    configApiConnection := false }

/-- A tracked context serving config-API traffic. -/
def ctxApi : ConnectionContext :=
  { clientAddress := "127.0.0.1:4712"
    agent := none
    clientSocket := some { remoteAddress := "127.0.0.1", remotePort := 4712 }
    socketCloseListener := some "127.0.0.1:4712"
    configApiConnection := true }

/-- A manager state tracking one ordinary and one config-API context. -/
def stTwo : ManagerState :=
  { agentCount := 2
    connectionContexts := [("127.0.0.1:4711", ctxWeb), ("127.0.0.1:4712", ctxApi)]
    tunnels := [] }

/-- A manager state tracking one tunnel. -/
def stTun : ManagerState :=
  { agentCount := 0
    connectionContexts := []
    tunnels := [("127.0.0.1:4711", { client := some sockA, target := some sockT })] }

/-- A concrete origin that demands NTLM: 401 challenges on the first two
legs, 200 on the Type 3 leg. -/
def originNtlm : AuthHeader → UpstreamResponse
  | .noAuth => { status := 401, ntlmChallenge := true, body := "" }
  | .ntlmType1 => { status := 401, ntlmChallenge := true, body := "NTLM type 2" }
  | .ntlmType3 => { status := 200, ntlmChallenge := false, body := "OK" }

/-- A concrete `url.parse` table for the two witness URLs. -/
def urlParseFixed : String → UrlParts := fun s =>
  if s = "http://127.0.0.1:5000" then
    { protocol := some "http:", hostname := some "127.0.0.1", port := some "5000" }
  else if s = "http://127.0.0.1:5001" then
    { protocol := some "http:", hostname := some "127.0.0.1", port := some "5001" }
  else { protocol := none, hostname := none, port := none }

/-- A well-formed ports file value. -/
def portsGood : PortsFileContent :=
  { configApiUrl := some "http://127.0.0.1:5000", ntlmProxyUrl := some "http://127.0.0.1:5001" }

/-! ### Witnesses -/

/-- Witness for C4: on the empty state the first call stores the fresh
context under the socket's client address and counts one agent. -/
theorem createConnectionContext_unique_per_clientAddress_witness :
    (createConnectionContext {} none cfgDirect sockA false urlLocal).2.1.connectionContexts =
      [(getClientAddress sockA,
        (createConnectionContext {} none cfgDirect sockA false urlLocal).1)] ∧
    (createConnectionContext {} none cfgDirect sockA false urlLocal).2.1.agentCount = 1 := by
  have h := (createConnectionContext_unique_per_clientAddress {} none cfgDirect sockA false
    urlLocal).2.1 rfl
  exact ⟨by simpa using h.2.1, h.2.2.1⟩

/-- Witness for C9: removing an address that is not in the table of
`stTwo` changes nothing, twice over. -/
theorem removeAgent_absent_noop_witness :
    removeAgent stTwo "close" "10.9.9.9:1" = (stTwo, []) ∧
    removeAgent (removeAgent stTwo "close" "10.9.9.9:1").1 "close" "10.9.9.9:1" =
      ((removeAgent stTwo "close" "10.9.9.9:1").1, []) := by
  have h := removeAgent_absent_noop stTwo "close" "close" "10.9.9.9:1"
  exact ⟨h.1 (by decide), h.2⟩

/-- Witness for C3: resetting `stTwo` keeps exactly the config-API context
and produces the listener-removal-then-destroy trace for the other one. -/
theorem removeAllConnectionContexts_spec_witness :
    (removeAllConnectionContexts stTwo "reset").1.connectionContexts =
      [("127.0.0.1:4712", ctxApi)] ∧
    (removeAllConnectionContexts stTwo "reset").2 =
      [Event.removedCloseListener "127.0.0.1:4711",
       Event.destroyedContext "127.0.0.1:4711" "reset"] := by
  have h := removeAllConnectionContexts_spec stTwo "reset" (by decide) (by decide) (by decide)
  exact ⟨by rw [h.1]; rfl, by rw [h.2.1]; rfl⟩

/-- Witness for C6: closing the tunnels of `stTun` ends the target-side
socket and empties the table. -/
theorem removeAndCloseAllTunnels_ends_all_witness :
    (removeAndCloseAllTunnels stTun "quit").1.tunnels = [] ∧
    (removeAndCloseAllTunnels stTun "quit").2 = [Event.socketEnded sockT] := by
  have h := removeAndCloseAllTunnels_ends_all stTun "quit" (by decide)
  exact ⟨h.1, by rw [h.2.1]; rfl⟩

/-- Witness for C10: closing twice after a successful listen invokes the
wrapped close exactly once. -/
theorem close_idempotent_witness :
    HttpMitmProxyFacade.close ({} : HttpMitmProxyFacade) = {} ∧
    HttpMitmProxyFacade.close^[2] (HttpMitmProxyFacade.listen {} false) =
      { ntlmProxyListening := false, mitmCloseCalls := 1 } := by
  have h := close_idempotent ({} : HttpMitmProxyFacade)
  exact ⟨h.2.1 rfl, h.2.2 2 (by decide)⟩

/-- Witness for C2: a GET through the configured path takes 3 upstream
legs against `originNtlm` and returns its final response; unconfigured, it
takes 1 leg and surfaces the 401. -/
theorem interceptRequest_leg_counts_witness :
    (interceptRequest true originNtlm "GET" "/get").1.length = 3 ∧
    (interceptRequest true originNtlm "GET" "/get").2 = originNtlm .ntlmType3 ∧
    (interceptRequest false originNtlm "GET" "/get").1.length = 1 ∧
    (interceptRequest false originNtlm "GET" "/get").2 = originNtlm .noAuth := by
  have h := interceptRequest_leg_counts originNtlm "GET" "/get" (by decide) (by decide)
    (by decide)
  exact ⟨h.1.1, h.1.2, by rw [h.2]; rfl, by rw [h.2]⟩

/-- Witness for C8: the well-formed ports file parses to a success with
its ports value; a missing file yields an error. -/
theorem parsePortsFile_success_iff_witness :
    parsePortsFile urlParseFixed (.json (some portsGood)) = .success portsGood ∧
    parsePortsFile urlParseFixed .missing = .failure .notRunning := by
  have h := parsePortsFile_success_iff urlParseFixed (.json (some portsGood)) portsGood
  exact ⟨h.1.mpr (by decide), rfl⟩
